import Mathlib

/-!
Verification of the configuration engine and live-reload monitor of the
burp-jython-console repository (src/Lib/gds/burp/config.py and
src/Lib/gds/burp/monitor.py), as a shallow embedding in Lean 4.

Modelling conventions:
- Python values that flow through the Configuration API (raw strings from
  the parser, registry defaults, caller-supplied defaults) are modelled by
  the tagged union PyVal.  Unicode decoding (to_unicode) is the identity on
  the model strings.  Character operations are modelled for ASCII, which is
  what the sources exercise.
- The sentinel _use_default is modelled with Option: none is the sentinel.
- The file system is a total map from file names to a status: absent,
  unreadable (stat works, open fails), or a readable file with a
  modification time and its parsed INI content.  ConfigParser itself is not
  re-modelled: a readable file carries its parsed representation directly
  (ordered sections of ordered key/value pairs, case-sensitive, since the
  source sets parser.optionxform = str).  The special DEFAULT section of
  ConfigParser is not used by the sources and is not modelled.
- Exceptions are modelled with Except and the error-kind type PyErr.
-/

/-- Python exception kinds raised by the modelled code paths. -/
inductive PyErr where
  | ioError
  | typeError
  | attributeError
  | valueError
deriving DecidableEq, Repr

/-- Tagged union of Python values handled by the configuration engine. -/
inductive PyVal where
  | str (s : String)
  | bool (b : Bool)
  | int (n : Int)
  | none
  | list (xs : List String)
deriving DecidableEq, Repr

/-- Python truthiness, bool(v), for the modelled values.  For these value
kinds bool() never raises, so the try/except around bool(value) in as_bool
is invisible in the model. -/
def pyTruthy : PyVal → Bool
  | .str s => !s.isEmpty
  | .bool b => b
  | .int n => n != 0
  | .none => false
  | .list xs => !xs.isEmpty

/-- ASCII decimal digit test, written over code points for easy arithmetic
reasoning. -/
def isDig (c : Char) : Bool := 48 ≤ c.toNat && c.toNat ≤ 57

/-- ASCII whitespace, the characters stripped by Python str.strip() that
occur in practice. -/
def isSpace (c : Char) : Bool :=
  c = ' ' || c = '\t' || c = '\n' || c = '\r' || c = Char.ofNat 11 || c = Char.ofNat 12

/-- Model of Python str.lower() on one ASCII character. -/
def lowerCh (c : Char) : Char :=
  if 65 ≤ c.toNat && c.toNat ≤ 90 then Char.ofNat (c.toNat + 32) else c

/-- Model of Python str.lower() on a character list. -/
def lowerStr (l : List Char) : List Char := l.map lowerCh

/-- Model of Python str.strip(): drop whitespace from both ends. -/
def stripChars (l : List Char) : List Char :=
  ((l.dropWhile isSpace).reverse.dropWhile isSpace).reverse

/-- Exponent and end-of-input part of the float grammar: after the mantissa,
the remaining characters must be empty or an exponent marker followed by an
optional sign and at least one digit.  The returned Bool says whether the
parsed number is nonzero, which for a finite decimal is decided by the
mantissa digits alone.  (The model treats the parsed literal as an exact
rational: binary rounding, overflow to infinity and underflow of tiny
exponents to 0.0 are below the granularity of this embedding.) -/
def parseExp (rest : List Char) (mant : List Char) : Option Bool :=
  let nonzero := mant.any (fun c => c != '0')
  match rest with
  | [] => some nonzero
  | c :: r =>
    if c = 'e' || c = 'E' then
      let r' := match r with
        | s :: r2 => if s = '+' || s = '-' then r2 else s :: r2
        | [] => []
      if !r'.isEmpty && r'.all isDig then some nonzero else Option.none
    else Option.none

/-- Decimal part of the Python float() grammar: digits, optionally a dot
with further digits, at least one digit in the mantissa overall, then an
optional exponent. -/
def parseDec (l : List Char) : Option Bool :=
  let ip := l.takeWhile isDig
  let r1 := l.dropWhile isDig
  match r1 with
  | [] => if ip.isEmpty then Option.none else parseExp [] ip
  | c :: r2 =>
    if c = '.' then
      let fp := r2.takeWhile isDig
      let r3 := r2.dropWhile isDig
      if ip.isEmpty && fp.isEmpty then Option.none else parseExp r3 (ip ++ fp)
    else if ip.isEmpty then Option.none else parseExp (c :: r2) ip

/-- Unsigned part of the float grammar: the case-insensitive words inf,
infinity and nan (all truthy as floats), or a decimal literal. -/
def parseUnsigned (l : List Char) : Option Bool :=
  if lowerStr l = "inf".data || lowerStr l = "infinity".data
      || lowerStr l = "nan".data then some true
  else parseDec l

/-- Float grammar after stripping: an optional single sign, then the
unsigned part. -/
def parseFloatChars : List Char → Option Bool
  | [] => Option.none
  | c :: cs => if c = '+' || c = '-' then parseUnsigned cs else parseUnsigned (c :: cs)

/-- Model of Python float(s) applied to a string, reporting only whether the
call succeeds and whether the value is nonzero (some true: parses and is
nonzero; some false: parses and is zero; none: ValueError).  float() itself
strips surrounding whitespace. -/
def pyFloatNonzero (s : String) : Option Bool := parseFloatChars (stripChars s.data)

/-- The four boolean words accepted by as_bool, already lower-case. -/
def boolWords : List (List Char) := ["yes".data, "true".data, "enabled".data, "on".data]

/-- Membership test of as_bool: value.strip().lower() among the boolean
words. -/
def inBoolWords (s : String) : Bool := boolWords.contains (lowerStr (stripChars s.data))

/-- Embedding of as_bool from src/Lib/gds/burp/config.py lines 29-44: for a
string, try bool(float(value)) and on ValueError fall back to the
stripped-lowered membership test; for any other value, bool(value). -/
def as_bool (v : PyVal) : Bool :=
  match v with
  | .str s =>
    match pyFloatNonzero s with
    | some z => z
    | Option.none => inBoolWords s
  | other => pyTruthy other

/-- Statement of the boolean-literal rule in the words of the spec: true
exactly when the trimmed case-folded string is one of the four words OR the
string parses as a nonzero number. -/
def specBoolStr (s : String) : Bool :=
  inBoolWords s || (pyFloatNonzero s == some true)

/-- Model of Python str.strip() returning a String. -/
def pstrip (s : String) : String := String.mk (stripChars s.data)

/-- Normalisation performed at the end of Section.get (config.py 329-332):
a falsy resolved value is replaced by the empty unicode string; a truthy
string is decoded by to_unicode (the identity in this model); any other
truthy value passes through unchanged. -/
def normVal (v : PyVal) : PyVal := if pyTruthy v then v else .str ""

/-- Model of os.path.isabs for POSIX-style paths. -/
def isAbs (p : String) : Bool := p.startsWith "/"

/-- Model of os.path.dirname: the part of the path before its last slash
(with trailing slashes of the head stripped unless the head is all
slashes). -/
def dirname (p : String) : String :=
  let head := ((p.data.reverse.dropWhile (fun c => c != '/')).reverse)
  if head.isEmpty then ""
  else if head.all (fun c => c = '/') then String.mk head
  else String.mk ((head.reverse.dropWhile (fun c => c = '/')).reverse)

/-- Model of os.path.join of a directory with a relative path. -/
def pjoin (a b : String) : String :=
  if a.isEmpty then b
  else if a.endsWith "/" then a ++ b
  else a ++ "/" ++ b

/-- The global option registry Option.registry, passed explicitly: each
declared (section, key) mapped to its default value.  In the source it is a
dict keyed by the pair; the first matching entry of the list is the
binding. -/
abbrev Registry := List ((String × String) × PyVal)

/-- Lookup Option.registry.get((section, key)), returning the default value
of the declared option. -/
def regFind (reg : Registry) (sect key : String) : Option PyVal :=
  (reg.find? (fun e => e.1.1 == sect && e.1.2 == key)).map (fun e => e.2)

/-- Parsed representation of one INI file as held by ConfigParser with
optionxform = str: ordered sections of ordered key/value pairs, both
case-sensitive. -/
abbrev ParsedFile := List (String × List (String × String))

/-- Raw lookup in the parsed data: parser.has_option / parser.get. -/
def lookupOpt (p : ParsedFile) (sect key : String) : Option String :=
  match p.find? (fun e => e.1 == sect) with
  | some e => (e.2.find? (fun kv => kv.1 == key)).map (fun kv => kv.2)
  | Option.none => Option.none

/-- A per-section value cache: the _cache dict of one Section proxy. -/
abbrev SCache := List (String × List (String × PyVal))

/-- Dict assignment on an association list. -/
def kvSet (l : List (String × PyVal)) (k : String) (v : PyVal) :
    List (String × PyVal) :=
  match l with
  | [] => [(k, v)]
  | (k2, v2) :: rest => if k2 == k then (k2, v) :: rest else (k2, v2) :: kvSet rest k v

/-- Store a value in the cache of the named section, creating the Section
entry on first use (Configuration.__getitem__ creates Section proxies
lazily). -/
def cacheInsert (sc : SCache) (sect key : String) (v : PyVal) : SCache :=
  match sc with
  | [] => [(sect, [(key, v)])]
  | (s2, cache) :: rest =>
    if s2 == sect then (s2, kvSet cache key v) :: rest
    else (s2, cache) :: cacheInsert rest sect key v

/-- Cached value of a key in the named section, if any. -/
def cacheFind (sc : SCache) (sect key : String) : Option PyVal :=
  match sc.find? (fun e => e.1 == sect) with
  | some e => (e.2.find? (fun kv => kv.1 == key)).map (fun kv => kv.2)
  | Option.none => Option.none

mutual
/-- State of one Configuration instance (config.py 79-249): the file name,
the parsed data held by its ConfigParser, the parent Configuration
instances in declaration order, the last recorded modification time
(_lastmtime, initially 0), and the value caches of its Section proxies
(_sections: the model keeps only the caches; a Section proxy that exists
but has cached nothing is indistinguishable from an absent one for every
operation modelled here). -/
inductive Configuration where
  | mk (filename : String) (parsed : ParsedFile) (parents : ConfigList)
      (lastmtime : Int) (scache : SCache)
/-- The parents list of a Configuration. -/
inductive ConfigList where
  | nil
  | cons (c : Configuration) (cs : ConfigList)
end

def ConfigList.ofList : List Configuration → ConfigList
  | [] => .nil
  | c :: cs => .cons c (ConfigList.ofList cs)

def ConfigList.toList : ConfigList → List Configuration
  | .nil => []
  | .cons c cs => c :: cs.toList

/-- Status of a path in the modelled file system. -/
inductive FileStatus where
  | absent
  | unreadable (mtime : Int)
  | file (mtime : Int) (content : ParsedFile)

/-- The file system: a total map from file names to their status. -/
abbrev FS := String → FileStatus

/-- Build a file system from an association list; unlisted names are
absent. -/
def fsOf (l : List (String × FileStatus)) : FS := fun fn =>
  match l.find? (fun e => e.1 == fn) with
  | some e => e.2
  | Option.none => FileStatus.absent

/-- Content seen by ConfigParser.read, which silently ignores files that
are missing or unreadable (the return value, the list of files actually
read, is checked only inside parse_if_needed). -/
def readParsed (fs : FS) (fn : String) : ParsedFile :=
  match fs fn with
  | .file _ content => content
  | _ => []

/-- Embedding of Configuration.__init__ (config.py 86-94): the parser reads
the file if it can, parents start empty, _lastmtime starts at 0, no section
proxies exist yet. -/
def freshConfiguration (fs : FS) (fn : String) : Configuration :=
  .mk fn (readParsed fs fn) .nil 0 []

/-- Parent file names of the inherit directive (config.py 236-242): the
comma-separated value of option file of section inherit, each element
stripped, resolved against the directory of this file when not absolute. -/
def inheritFiles (fn : String) (content : ParsedFile) : List String :=
  match lookupOpt content "inherit" "file" with
  | Option.none => []
  | some v => (v.splitOn ",").map (fun f =>
      let f2 := pstrip f
      if isAbs f2 then f2 else pjoin (dirname fn) f2)

mutual
/-- Embedding of Section.get (config.py 304-334).  The default argument
uses Option: none is the sentinel _use_default.  Resolution on a cache
miss: the value explicit in this file, else the first parent chain hit
(each parent queried with the sentinel, so parents never consult the
registry), else — only when the caller passed a real default — the registry
default, else the caller default (not cached).  Resolved values are
normalised and cached; caches touched in visited parents are kept, so the
updated Configuration is returned alongside the value. -/
def section_get (reg : Registry) (sect key : String) (default : Option PyVal) :
    Configuration → Option PyVal × Configuration
  | .mk fn p ps lm sc =>
    match cacheFind sc sect key with
    | some v => (some v, .mk fn p ps lm sc)
    | Option.none =>
      match lookupOpt p sect key with
      | some raw =>
        let v := normVal (.str raw)
        (some v, .mk fn p ps lm (cacheInsert sc sect key v))
      | Option.none =>
        match section_get_parents reg sect key ps with
        | (some v, ps2) =>
          let v2 := normVal v
          (some v2, .mk fn p ps2 lm (cacheInsert sc sect key v2))
        | (Option.none, ps2) =>
          match default with
          | some _ =>
            match regFind reg sect key with
            | some dv =>
              let v2 := normVal dv
              (some v2, .mk fn p ps2 lm (cacheInsert sc sect key v2))
            | Option.none => (default, .mk fn p ps2 lm sc)
          | Option.none => (Option.none, .mk fn p ps2 lm sc)

/-- The for-loop over self.config.parents inside Section.get: query each
parent with the sentinel default and stop at the first hit. -/
def section_get_parents (reg : Registry) (sect key : String) :
    ConfigList → Option PyVal × ConfigList
  | .nil => (Option.none, .nil)
  | .cons c cs =>
    match section_get reg sect key Option.none c with
    | (some v, c2) => (some v, .cons c2 cs)
    | (Option.none, c2) =>
      let r := section_get_parents reg sect key cs
      (r.1, .cons c2 r.2)
end

mutual
/-- Embedding of Configuration.parse_if_needed (config.py 217-249).  An
empty file name or a missing file is a no-op returning false.  When force
is set or the on-disk mtime strictly exceeds _lastmtime, the file is
reparsed: section proxies dropped, parser reloaded, _lastmtime updated, and
the parents rebuilt as fresh Configuration instances from the inherit
directive.  An unreadable file makes parser.read return an empty list, so
the code reaches raise IOError(msg % (filename,)); the format string uses
the mapping key file against a tuple operand, so building the message
itself raises TypeError (format requires a mapping) before any IOError
exists.  When this file did not change, parse_if_needed is propagated to
the existing parents and their changed results are ORed; in that branch the
source assigns an empty dict to self._cache, an attribute nothing ever
reads (the live caches sit in the Section proxies of self._sections, which
are not cleared), so the assignment is invisible in the model. -/
def parse_if_needed (fs : FS) (force : Bool) :
    Configuration → Except PyErr (Bool × Configuration)
  | .mk fn p ps lm sc =>
    if fn == "" then .ok (false, .mk fn p ps lm sc)
    else
      match fs fn with
      | .absent => .ok (false, .mk fn p ps lm sc)
      | .unreadable mt =>
        if force || mt > lm then .error .typeError
        else
          match parse_if_needed_parents fs force ps with
          | .error e => .error e
          | .ok r => .ok (r.1, .mk fn p r.2 lm sc)
      | .file mt content =>
        if force || mt > lm then
          .ok (true, .mk fn content
            (ConfigList.ofList ((inheritFiles fn content).map (freshConfiguration fs)))
            mt [])
        else
          match parse_if_needed_parents fs force ps with
          | .error e => .error e
          | .ok r => .ok (r.1, .mk fn p r.2 lm sc)

/-- The propagation loop over self.parents: left to right, ORing the
changed results; an exception from a parent propagates immediately. -/
def parse_if_needed_parents (fs : FS) (force : Bool) :
    ConfigList → Except PyErr (Bool × ConfigList)
  | .nil => .ok (false, .nil)
  | .cons c cs =>
    match parse_if_needed fs force c with
    | .error e => .error e
    | .ok r =>
      match parse_if_needed_parents fs force cs with
      | .error e => .error e
      | .ok r2 => .ok (r.1 || r2.1, .cons r.2 r2.2)
end

/-- Embedding of Configuration.get (config.py 111-116): delegate to the
section proxy with the default empty string. -/
def configuration_get (reg : Registry) (sect key : String) (c : Configuration) :
    PyVal × Configuration :=
  let r := section_get reg sect key (some (.str "")) c
  ((r.1).getD (.str ""), r.2)

/-- Embedding of Section.getbool (config.py 336-345): as_bool of the
resolved value. -/
def section_getbool (reg : Registry) (sect key : String) (default : PyVal)
    (c : Configuration) : Bool × Configuration :=
  let r := section_get reg sect key (some default) c
  (as_bool ((r.1).getD default), r.2)

/-- Embedding of Section.getlist (config.py 367-386): a falsy resolved
value yields the empty list; a string is split on sep with each element
stripped; a sequence value is taken verbatim (list(value)); any other
truthy value makes list(value) raise TypeError; with keep_empty false the
zero-length elements are dropped (filter(None, items)). -/
def section_getlist (reg : Registry) (sect key : String) (default : PyVal)
    (sep : String) (keepEmpty : Bool) (c : Configuration) :
    Except PyErr (List String) × Configuration :=
  let r := section_get reg sect key (some default) c
  let value := (r.1).getD default
  if !pyTruthy value then (.ok [], r.2)
  else
    match value with
    | .str s =>
      let items := (s.splitOn sep).map (fun i => pstrip i)
      (.ok (if keepEmpty then items else items.filter (fun i => i != "")), r.2)
    | .list xs =>
      (.ok (if keepEmpty then xs else xs.filter (fun i => i != "")), r.2)
    | _ => (.error PyErr.typeError, r.2)

/-- Embedding of Configuration.getlist (config.py 142-152) called with its
default arguments: default the empty string, separator comma, and
keep_empty False. -/
def configuration_getlist (reg : Registry) (sect key : String)
    (c : Configuration) : Except PyErr (List String) × Configuration :=
  section_getlist reg sect key (.str "") "," false c

/-- Section.getlist called with its own default arguments (config.py 367):
default the empty string, separator comma, and keep_empty True. -/
def section_getlist_defaults (reg : Registry) (sect key : String)
    (c : Configuration) : Except PyErr (List String) × Configuration :=
  section_getlist reg sect key (.str "") "," true c

/-- Embedding of Configuration.remove (config.py 185-187).  The source body
is self[section].remove(key); class Section (config.py 252-409), whose
slots declaration also forbids late attribute injection, defines no
attribute named remove, so the attribute lookup raises AttributeError
unconditionally, for every configuration and every arguments. -/
def configuration_remove (c : Configuration) (sect key : String) :
    Except PyErr Unit :=
  .error .attributeError

mutual
/-- Drop every cached section value, recursively: a fresh resolution over
the same parsed data and parent chain is section_get on this state. -/
def clearCaches : Configuration → Configuration
  | .mk fn p ps lm _ => .mk fn p (clearCachesList ps) lm []
def clearCachesList : ConfigList → ConfigList
  | .nil => .nil
  | .cons c cs => .cons (clearCaches c) (clearCachesList cs)
end

mutual
/-- No section proxy of this configuration or of any ancestor has cached a
value yet. -/
def cachesEmpty : Configuration → Bool
  | .mk _ _ ps _ sc => sc.all (fun e => e.2.isEmpty) && cachesEmptyList ps
def cachesEmptyList : ConfigList → Bool
  | .nil => true
  | .cons c cs => cachesEmpty c && cachesEmptyList cs
end

mutual
/-- Explicit presence in the words of invariant I1: the value explicit in
this file's own parsed section, else the value explicit in the nearest
parent, depth-first, parents tried in declaration order. -/
def lookupExplicit (sect key : String) : Configuration → Option String
  | .mk _ p ps _ _ =>
    match lookupOpt p sect key with
    | some v => some v
    | Option.none => lookupExplicitList sect key ps
def lookupExplicitList (sect key : String) : ConfigList → Option String
  | .nil => Option.none
  | .cons c cs =>
    match lookupExplicit sect key c with
    | some v => some v
    | Option.none => lookupExplicitList sect key cs
end

mutual
/-- Every file of the configuration tree is current: its recorded mtime is
at least the on-disk mtime (or the file is gone), recursively through the
parents that would be visited. -/
def upToDate (fs : FS) : Configuration → Bool
  | .mk fn _ ps lm _ =>
    if fn == "" then true
    else
      match fs fn with
      | .absent => true
      | .unreadable mt => decide (mt ≤ lm) && upToDateList fs ps
      | .file mt _ => decide (mt ≤ lm) && upToDateList fs ps
def upToDateList (fs : FS) : ConfigList → Bool
  | .nil => true
  | .cons c cs => upToDate fs c && upToDateList fs cs
end

/-- A dependent registered with the monitor (an entry of one
burp.monitoring list): an identifier, whether the weak reference to its
target is still alive, and whether its reload action raises when invoked.
The reload action itself (module reload and menu patching, configuration
parse_if_needed with force, or the component no-op) is abstracted to this
outcome. -/
structure Plugin where
  pid : Nat
  alive : Bool
  raises : Bool
deriving DecidableEq, Repr

/-- The mtimes dict of PluginMonitorThread. -/
abbrev Mtimes := List (String × Int)

/-- self.mtimes.get(filename, -1). -/
def mtimesGet (m : Mtimes) (fn : String) : Int :=
  match m.find? (fun e => e.1 == fn) with
  | some e => e.2
  | Option.none => -1

/-- self.mtimes[filename] = lastModified. -/
def mtimesSet (m : Mtimes) (fn : String) (t : Int) : Mtimes :=
  match m with
  | [] => [(fn, t)]
  | (f2, t2) :: rest =>
    if f2 == fn then (f2, t) :: rest else (f2, t2) :: mtimesSet rest fn t

/-- os.path.getmtime: none models the OSError raised for a missing file. -/
def fsMtime (fs : FS) (fn : String) : Option Int :=
  match fs fn with
  | .absent => Option.none
  | .unreadable mt => some mt
  | .file mt _ => some mt

/-- The reload loop of PluginMonitorThread.__monitor over one changed
file's dependents (monitor.py 39-41 with __reload, 45-75), in registration
order: a dead reference is warned about and skipped; the first raising
reload action aborts the loop (its exception propagates out of __monitor).
Returns the ids of dependents whose reload completed and whether an
exception escaped. -/
def reloadSeq : List Plugin → List Nat × Bool
  | [] => ([], false)
  | p :: ps =>
    if !p.alive then reloadSeq ps
    else if p.raises then ([], true)
    else
      let r := reloadSeq ps
      (p.pid :: r.1, r.2)

/-- Outcome of one tick of the monitor loop. -/
structure TickResult where
  mtimes : Mtimes
  detected : List String
  reloaded : List Nat
deriving DecidableEq, Repr

/-- Embedding of one tick of PluginMonitorThread.run (monitor.py 77-85).
The try block wraps the whole loop over burp.monitoring, so the first
exception — from getmtime on a vanished file or from a reload action —
ends the tick with the remaining files unvisited; it is caught and logged,
and the thread sleeps until the next tick, so the loop itself never
terminates.  __has_changed (monitor.py 25-32) records the new mtime before
any reload runs, which is why a file whose reload failed is not retried
until its mtime advances again.  The watch list models the fixed iteration
order of the burp.monitoring dict. -/
def monitorTick (fs : FS) : List (String × List Plugin) → Mtimes → TickResult
  | [], m => ⟨m, [], []⟩
  | (fn, plugins) :: rest, m =>
    match fsMtime fs fn with
    | Option.none => ⟨m, [], []⟩
    | some t =>
      if t > mtimesGet m fn then
        let m2 := mtimesSet m fn t
        let r := reloadSeq plugins
        if r.2 then ⟨m2, [fn], r.1⟩
        else
          let tr := monitorTick fs rest m2
          ⟨tr.mtimes, fn :: tr.detected, r.1 ++ tr.reloaded⟩
      else monitorTick fs rest m

/-- Elementwise view of the propagation loop: each parent passed through
parse_if_needed, left to right, stopping at the first exception. -/
def parse_each_parent (fs : FS) (force : Bool) :
    List Configuration → Except PyErr (List (Bool × Configuration))
  | [] => .ok []
  | c :: cs =>
    match parse_if_needed fs force c with
    | .error e => .error e
    | .ok r =>
      match parse_each_parent fs force cs with
      | .error e => .error e
      | .ok rs => .ok (r :: rs)

/-- File system for the C6 witness: file f inherits from q, both present
with mtime 7. -/
def fsC6 : FS := fsOf [("f", .file 7 [("inherit", [("file", "q")])]),
                       ("q", .file 7 [("x", [("a", "1")])])]

/-- File system for the C8 counterexample: c inherits from p, both mtime
5; nothing is modified between the two calls. -/
def fsC8 : FS := fsOf [("c", .file 5 [("inherit", [("file", "p")])]),
                       ("p", .file 5 [("x", [("a", "2")])])]

/-- File system for the C8 witness: a single current file with no inherit
directive. -/
def fsC8w : FS := fsOf [("w", .file 4 [("x", [("a", "1")])])]

/-- File system before the parent modification: c inherits from p, p holds
x.a = 1. -/
def fsC1a : FS := fsOf [("c", .file 5 [("inherit", [("file", "p")])]),
                        ("p", .file 5 [("x", [("a", "1")])])]

/-- File system after modifying only p: its mtime advances to 6 and x.a
becomes 2; c is untouched. -/
def fsC1b : FS := fsOf [("c", .file 5 [("inherit", [("file", "p")])]),
                        ("p", .file 6 [("x", [("a", "2")])])]

/-- Watch list for the C7 counterexample: file A with a raising dependent
iterated before file B with a healthy one. -/
def watchC7 : List (String × List Plugin) :=
  [("A", [⟨1, true, true⟩]), ("B", [⟨2, true, false⟩])]

/-- File system for the C7 counterexample: both files exist with mtime
10. -/
def fsC7 : FS := fsOf [("A", .file 10 []), ("B", .file 10 [])]

example : as_bool (.str "Yes") = true := by decide

example : as_bool (.str "TRUE") = true := by decide

example : as_bool (.str "On") = true := by decide

example : as_bool (.str "1") = true := by decide

example : as_bool (.str "2.5") = true := by decide

example : as_bool (.str "no") = false := by decide

example : as_bool (.str "") = false := by decide

example : as_bool (.str "0") = false := by decide

example : as_bool (.str "maybe") = false := by decide

example : as_bool (.str " nan ") = true := by decide

example : as_bool (.str "0e10") = false := by decide

lemma lowerCh_eq_self_of_digit (a : Char) (h : isDig a = true) : lowerCh a = a := by
  unfold isDig at h
  simp only [Bool.and_eq_true, decide_eq_true_eq] at h
  rw [lowerCh, if_neg]
  simp only [Bool.and_eq_true, decide_eq_true_eq, not_and]
  omega

lemma parseFloat_none_of_headLower (a : Char) (rest : List Char)
    (h : lowerCh a = 'y' ∨ lowerCh a = 't' ∨ lowerCh a = 'e' ∨ lowerCh a = 'o') :
    parseFloatChars (a :: rest) = Option.none := by
  have hplus : a ≠ '+' := by rintro rfl; revert h; decide
  have hminus : a ≠ '-' := by rintro rfl; revert h; decide
  have hdot : a ≠ '.' := by rintro rfl; revert h; decide
  have hdig : isDig a = false := by
    cases hd : isDig a with
    | false => rfl
    | true =>
      have := lowerCh_eq_self_of_digit a hd
      rw [this] at h
      rcases h with h | h | h | h <;> (subst h; revert hd; decide)
  have hlow : lowerCh a ≠ 'i' ∧ lowerCh a ≠ 'n' := by
    rcases h with h | h | h | h <;> (rw [h]; exact ⟨by decide, by decide⟩)
  have h1 : lowerStr (a :: rest) ≠ "inf".data := by
    intro hc
    rw [show ("inf".data) = ['i', 'n', 'f'] from rfl] at hc
    simp only [lowerStr, List.map_cons, List.cons.injEq] at hc
    exact hlow.1 hc.1
  have h2 : lowerStr (a :: rest) ≠ "infinity".data := by
    intro hc
    rw [show ("infinity".data) = ['i', 'n', 'f', 'i', 'n', 'i', 't', 'y'] from rfl] at hc
    simp only [lowerStr, List.map_cons, List.cons.injEq] at hc
    exact hlow.1 hc.1
  have h3 : lowerStr (a :: rest) ≠ "nan".data := by
    intro hc
    rw [show ("nan".data) = ['n', 'a', 'n'] from rfl] at hc
    simp only [lowerStr, List.map_cons, List.cons.injEq] at hc
    exact hlow.2 hc.1
  have h4 : List.takeWhile isDig (a :: rest) = [] := by
    simp [List.takeWhile_cons, hdig]
  have h5 : List.dropWhile isDig (a :: rest) = a :: rest := by
    simp [List.dropWhile_cons, hdig]
  simp only [parseFloatChars]
  rw [if_neg (by simp [hplus, hminus])]
  simp only [parseUnsigned]
  rw [if_neg (by simp [h1, h2, h3])]
  simp only [parseDec, h4, h5]
  rw [if_neg (by simp [hdot])]
  simp

lemma inBoolWords_float_none (s : String) (h : inBoolWords s = true) :
    pyFloatNonzero s = Option.none := by
  unfold inBoolWords at h
  unfold pyFloatNonzero
  have hmem : lowerStr (stripChars s.data) ∈ boolWords :=
    List.mem_of_elem_eq_true h
  rcases ht : stripChars s.data with _ | ⟨a, rest⟩
  · rw [ht] at hmem
    revert hmem
    decide
  · rw [ht] at hmem
    simp only [boolWords, List.mem_cons, List.not_mem_nil, or_false] at hmem
    apply parseFloat_none_of_headLower
    rcases hmem with hm | hm | hm | hm <;>
      simp only [lowerStr, List.map_cons, List.cons.injEq] at hm
    · exact Or.inl hm.1
    · exact Or.inr (Or.inl hm.1)
    · exact Or.inr (Or.inr (Or.inl hm.1))
    · exact Or.inr (Or.inr (Or.inr hm.1))

lemma as_bool_str_eq_spec (s : String) : as_bool (.str s) = specBoolStr s := by
  unfold as_bool specBoolStr
  cases hf : pyFloatNonzero s with
  | none => simp [hf]
  | some z =>
    cases z with
    | true => simp [hf]
    | false =>
      simp only [hf]
      cases hb : inBoolWords s with
      | false => simp [hb]
      | true => rw [inBoolWords_float_none s hb] at hf; cases hf

/-- C2: the claim says removeOption(section, key) deletes the explicit
entry for the key from this file's in-memory parsed representation, so a
later get falls through to the parent, registry default or caller default.
The code cannot do this: Configuration.remove delegates to a remove
attribute that class Section does not define, so every call raises
AttributeError and no entry is ever deleted. -/
theorem remove_always_attribute_error (c : Configuration) (sect key : String) :
    configuration_remove c sect key = .error .attributeError := rfl

/-- C4: getbool applies as_bool to the resolved value, and as_bool agrees
with the boolean-literal rule of the spec on every string: true exactly
when the stripped case-folded string is yes, true, enabled or on, or the
string parses as a nonzero number; every other string, the empty one
included, gives false.  A boolean default is taken at face value, and the
other non-string values coerce by truthiness without raising, the falsy
ones to false. -/
theorem getbool_boolean_literal_rule :
    (∀ (reg : Registry) (sect key : String) (d : PyVal) (c : Configuration),
      (section_getbool reg sect key d c).1
        = as_bool (((section_get reg sect key (some d) c).1).getD d))
    ∧ (∀ s : String, as_bool (.str s) = specBoolStr s)
    ∧ (∀ b : Bool, as_bool (.bool b) = b)
    ∧ (∀ n : Int, as_bool (.int n) = (n != 0))
    ∧ as_bool .none = false
    ∧ (∀ xs : List String, as_bool (.list xs) = !xs.isEmpty)
    ∧ (["Yes", "TRUE", "On", "1", "2.5"].all (fun s => as_bool (.str s)) = true)
    ∧ (["no", "", "0", "maybe"].all (fun s => !as_bool (.str s)) = true) := by
  refine ⟨fun reg sect key d c => rfl, as_bool_str_eq_spec, fun b => rfl,
    fun n => rfl, rfl, fun xs => rfl, by decide, by decide⟩

/-- C9: whenever the resolved value of a key is the empty string — an
explicit empty value or an empty caller-supplied default alike — getlist
returns the empty list, for every separator and both keep_empty settings:
the empty string is never split into a one-element list. -/
theorem getlist_empty_value_empty_list (reg : Registry) (sect key : String)
    (d : PyVal) (sep : String) (keepEmpty : Bool) (c : Configuration)
    (h : ((section_get reg sect key (some d) c).1).getD d = .str "") :
    (section_getlist reg sect key d sep keepEmpty c).1 = .ok [] := by
  unfold section_getlist
  simp only [h]
  rfl

/-- Closed witness for the C9 theorem: a key explicitly set to the empty
string, an unusual separator and keep_empty true still give the empty
list. -/
theorem getlist_empty_value_empty_list_witness :
    (section_getlist [] "x" "a" (.str "d") ";" true
      (.mk "f" [("x", [("a", "")])] .nil 0 [])).1 = .ok [] :=
  getlist_empty_value_empty_list [] "x" "a" (.str "d") ";" true
    (.mk "f" [("x", [("a", "")])] .nil 0 []) (by with_unfolding_all rfl)

/-- C10: called without the keep_empty argument, Configuration.getlist
drops zero-length elements (its default is False) while Section.getlist
keeps them (its default is True), so on the same raw value a,,b the two
entry points return different lists. -/
theorem getlist_defaults_differ :
    (configuration_getlist [] "x" "a"
        (.mk "f" [("x", [("a", "a,,b")])] .nil 0 [])).1 = .ok ["a", "b"]
    ∧ (section_getlist_defaults [] "x" "a"
        (.mk "f" [("x", [("a", "a,,b")])] .nil 0 [])).1 = .ok ["a", "", "b"]
    ∧ (Except.ok ["a", "b"] : Except PyErr (List String)) ≠ .ok ["a", "", "b"] := by
  refine ⟨by with_unfolding_all rfl, by with_unfolding_all rfl, by simp⟩

/-- C5: a missing file (or an unset file name) makes parse_if_needed a
no-op returning false without raising; the claim further says an existing
but unreadable file raises ConfigReadError — the code reaches its raise
IOError statement, but the message format %(file)s applied to a tuple
raises TypeError first, so the exception that actually surfaces is
TypeError. -/
theorem parse_if_needed_missing_vs_unreadable (fs : FS) (fn : String)
    (p : ParsedFile) (ps : ConfigList) (lm : Int) (sc : SCache) (force : Bool) :
    (fs fn = .absent →
      parse_if_needed fs force (.mk fn p ps lm sc) = .ok (false, .mk fn p ps lm sc))
    ∧ (∀ mt : Int, fs fn = .unreadable mt → (fn == "") = false →
      (force || decide (mt > lm)) = true →
      parse_if_needed fs force (.mk fn p ps lm sc) = .error .typeError) := by
  constructor
  · intro h
    unfold parse_if_needed
    by_cases hfn : (fn == "") = true
    · simp [hfn]
    · simp only [Bool.not_eq_true] at hfn
      simp [hfn, h]
  · intro mt h hfn hcond
    unfold parse_if_needed
    simp [hfn, h, hcond]

/-- Closed witness for the C5 theorem: an absent file is a silent no-op, an
unreadable stale file raises. -/
theorem parse_if_needed_missing_vs_unreadable_witness :
    parse_if_needed (fsOf [("f", .unreadable 3)]) false (.mk "g" [] .nil 0 [])
      = .ok (false, .mk "g" [] .nil 0 [])
    ∧ parse_if_needed (fsOf [("f", .unreadable 3)]) false (.mk "f" [] .nil 0 [])
      = .error .typeError :=
  ⟨(parse_if_needed_missing_vs_unreadable (fsOf [("f", .unreadable 3)]) "g"
      [] .nil 0 [] false).1 (by with_unfolding_all rfl),
   (parse_if_needed_missing_vs_unreadable (fsOf [("f", .unreadable 3)]) "f"
      [] .nil 0 [] false).2 3 (by with_unfolding_all rfl) (by decide) (by decide)⟩

lemma parents_fold_ok (fs : FS) (force : Bool) :
    ∀ (cs : ConfigList) (rs : List (Bool × Configuration)),
    parse_each_parent fs force cs.toList = .ok rs →
    parse_if_needed_parents fs force cs
      = .ok (rs.any (fun r => r.1), ConfigList.ofList (rs.map (fun r => r.2)))
  | .nil, rs, h => by
    simp only [ConfigList.toList, parse_each_parent] at h
    cases h
    rfl
  | .cons c cs, rs, h => by
    simp only [ConfigList.toList, parse_each_parent] at h
    unfold parse_if_needed_parents
    cases hc : parse_if_needed fs force c with
    | error e => rw [hc] at h; exact (Except.noConfusion h)
    | ok r =>
      rw [hc] at h
      cases hcs : parse_each_parent fs force cs.toList with
      | error e => rw [hcs] at h; exact (Except.noConfusion h)
      | ok rs0 =>
        rw [hcs] at h
        injection h with h2
        subst h2
        rw [parents_fold_ok fs force cs rs0 hcs]
        simp [List.any_cons, ConfigList.ofList]

lemma parents_fold_error (fs : FS) (force : Bool) :
    ∀ (cs : ConfigList) (e : PyErr),
    parse_each_parent fs force cs.toList = .error e →
    parse_if_needed_parents fs force cs = .error e
  | .nil, e, h => by
    simp only [ConfigList.toList, parse_each_parent] at h
    exact (Except.noConfusion h)
  | .cons c cs, e, h => by
    simp only [ConfigList.toList, parse_each_parent] at h
    unfold parse_if_needed_parents
    cases hc : parse_if_needed fs force c with
    | error e2 =>
      simp only [hc] at h ⊢
      injection h with h2
      rw [h2]
    | ok r =>
      simp only [hc] at h ⊢
      cases hcs : parse_each_parent fs force cs.toList with
      | error e2 =>
        simp only [hcs] at h
        injection h with h2
        simp only [parents_fold_error fs force cs e2 hcs]
        rw [h2]
      | ok rs0 => simp only [hcs] at h; exact (Except.noConfusion h)

/-- C6: with an existing file, parse_if_needed reparses exactly when force
is set or the mtime strictly exceeds the recorded one; only then are the
parents rebuilt, as fresh Configuration instances for the elements of the
comma-separated inherit.file directive (trimmed, resolved against this
file's directory when relative, in listed order); otherwise parse_if_needed
is propagated to each existing parent in order and the result is true
exactly when some visited configuration changed. -/
theorem parse_if_needed_reparse_rule (fs : FS) (fn : String) (p : ParsedFile)
    (ps : ConfigList) (lm : Int) (sc : SCache) (force : Bool) (mt : Int)
    (content : ParsedFile) (hfn : (fn == "") = false)
    (hfs : fs fn = .file mt content) :
    ((force || decide (mt > lm)) = true →
      parse_if_needed fs force (.mk fn p ps lm sc)
        = .ok (true, .mk fn content
            (ConfigList.ofList ((inheritFiles fn content).map (freshConfiguration fs)))
            mt []))
    ∧ ((force || decide (mt > lm)) = false →
      (∀ rs, parse_each_parent fs force ps.toList = .ok rs →
        parse_if_needed fs force (.mk fn p ps lm sc)
          = .ok (rs.any (fun r => r.1),
              .mk fn p (ConfigList.ofList (rs.map (fun r => r.2))) lm sc))
      ∧ (∀ e, parse_each_parent fs force ps.toList = .error e →
        parse_if_needed fs force (.mk fn p ps lm sc) = .error e)) := by
  refine ⟨?_, fun hcond => ⟨?_, ?_⟩⟩
  · intro hcond
    unfold parse_if_needed
    simp [hfn, hfs, hcond]
  · intro rs hrs
    unfold parse_if_needed
    simp only [hfn, Bool.false_eq_true, if_false, hfs, hcond]
    simp only [parents_fold_ok fs force ps rs hrs]
  · intro e he
    unfold parse_if_needed
    simp only [hfn, Bool.false_eq_true, if_false, hfs, hcond]
    simp only [parents_fold_error fs force ps e he]

/-- Closed witness for the C6 theorem: an unparsed configuration of f
reparses and rebuilds its parent as a fresh instance of q; a current one
propagates to its (empty) parent list and reports no change. -/
theorem parse_if_needed_reparse_rule_witness :
    parse_if_needed fsC6 false (.mk "f" [] .nil 0 [])
      = .ok (true, .mk "f" [("inherit", [("file", "q")])]
          (.cons (.mk "q" [("x", [("a", "1")])] .nil 0 []) .nil) 7 [])
    ∧ parse_if_needed fsC6 false (.mk "f" [] .nil 7 [])
      = .ok (false, .mk "f" [] .nil 7 []) := by
  constructor
  · have h := (parse_if_needed_reparse_rule fsC6 "f" [] .nil 0 [] false 7
      [("inherit", [("file", "q")])] (by decide) (by with_unfolding_all rfl)).1
      (by decide)
    with_unfolding_all exact h
  · have h := ((parse_if_needed_reparse_rule fsC6 "f" [] .nil 7 [] false 7
      [("inherit", [("file", "q")])] (by decide) (by with_unfolding_all rfl)).2
      (by decide)).1 [] (by with_unfolding_all rfl)
    with_unfolding_all exact h

mutual
theorem upToDate_parse_noop (fs : FS) :
    ∀ c : Configuration, upToDate fs c = true →
      parse_if_needed fs false c = .ok (false, c)
  | .mk fn p ps lm sc, h => by
    unfold upToDate at h
    unfold parse_if_needed
    by_cases hfn : (fn == "") = true
    · simp [hfn]
    · simp only [Bool.not_eq_true] at hfn
      simp only [hfn, Bool.false_eq_true, if_false] at h ⊢
      cases hfs : fs fn with
      | absent => simp [hfs]
      | unreadable mt =>
        rw [hfs] at h
        simp only [Bool.and_eq_true, decide_eq_true_eq] at h
        have hml : (false || decide (mt > lm)) = false := by
          simp only [Bool.false_or, decide_eq_false_iff_not]
          omega
        simp only [hfs, hml, Bool.false_eq_true, if_false]
        simp only [upToDate_parse_noop_list fs ps h.2]
      | file mt content =>
        rw [hfs] at h
        simp only [Bool.and_eq_true, decide_eq_true_eq] at h
        have hml : (false || decide (mt > lm)) = false := by
          simp only [Bool.false_or, decide_eq_false_iff_not]
          omega
        simp only [hfs, hml, Bool.false_eq_true, if_false]
        simp only [upToDate_parse_noop_list fs ps h.2]

theorem upToDate_parse_noop_list (fs : FS) :
    ∀ cs : ConfigList, upToDateList fs cs = true →
      parse_if_needed_parents fs false cs = .ok (false, cs)
  | .nil, _ => rfl
  | .cons c cs, h => by
    unfold upToDateList at h
    simp only [Bool.and_eq_true] at h
    unfold parse_if_needed_parents
    simp only [upToDate_parse_noop fs c h.1, upToDate_parse_noop_list fs cs h.2,
      Bool.or_self]
end

/-- C8 counterexample: the first parse_if_needed(force=false) on a fresh
configuration of c reparses it and rebuilds its parent as a fresh instance
of p with recorded mtime 0; with no file modified in between, the second
call propagates into that parent, whose first parse makes it report
changed, so the second call returns true — not false as the claim
states. -/
theorem parse_twice_second_call_changed :
    parse_if_needed fsC8 false (freshConfiguration fsC8 "c")
      = .ok (true, .mk "c" [("inherit", [("file", "p")])]
          (.cons (.mk "p" [("x", [("a", "2")])] .nil 0 []) .nil) 5 [])
    ∧ parse_if_needed fsC8 false (.mk "c" [("inherit", [("file", "p")])]
          (.cons (.mk "p" [("x", [("a", "2")])] .nil 0 []) .nil) 5 [])
      = .ok (true, .mk "c" [("inherit", [("file", "p")])]
          (.cons (.mk "p" [("x", [("a", "2")])] .nil 5 []) .nil) 5 []) := by
  exact ⟨by with_unfolding_all rfl, by with_unfolding_all rfl⟩

/-- C8 as amended: two successive parse_if_needed(force=false) calls with
no intervening modification return false on the second call and leave the
configuration — hence every cached section value — literally unchanged,
provided every file of the tree reachable after the first call is current
(in particular its parents have already been parsed once); when the first
call reparsed this file, the rebuilt parents carry recorded mtime 0, their
first parse happens during the second call and that call returns true
instead (see the counterexample). -/
theorem parse_if_needed_idempotent_when_current (fs : FS) (c c2 : Configuration)
    (ch : Bool) (h1 : parse_if_needed fs false c = .ok (ch, c2))
    (h2 : upToDate fs c2 = true) :
    parse_if_needed fs false c2 = .ok (false, c2) :=
  upToDate_parse_noop fs c2 h2

/-- Closed witness for the amended C8 theorem: a parsed, current
configuration with a populated section cache is returned unchanged with
changed=false. -/
theorem parse_if_needed_idempotent_when_current_witness :
    parse_if_needed fsC8w false
      (.mk "w" [("x", [("a", "1")])] .nil 4 [("x", [("a", .str "1")])])
      = .ok (false, .mk "w" [("x", [("a", "1")])] .nil 4 [("x", [("a", .str "1")])]) :=
  parse_if_needed_idempotent_when_current fsC8w
    (.mk "w" [("x", [("a", "1")])] .nil 4 [("x", [("a", .str "1")])])
    (.mk "w" [("x", [("a", "1")])] .nil 4 [("x", [("a", .str "1")])])
    false (by with_unfolding_all rfl) (by with_unfolding_all rfl)

/-- C1: the claim requires that after parse_if_needed returns true — here
because the transitively visited parent p changed — a subsequent get
returns what a fresh resolution over the new data would produce.  The code
violates this: when only a parent changed, the child branch assigns an
empty dict to the dead attribute self._cache but does not clear
self._sections, so the child Section cache still serves the value cached
before the reparse.  Trace: parse, get x.a (1, cached from the parent),
modify p to 2, parse again (returns true), get x.a again — the stale 1 is
served although a fresh resolution yields 2. -/
theorem cache_stale_after_parent_reparse :
    parse_if_needed fsC1a false (freshConfiguration fsC1a "c")
      = .ok (true, .mk "c" [("inherit", [("file", "p")])]
          (.cons (.mk "p" [("x", [("a", "1")])] .nil 0 []) .nil) 5 [])
    ∧ configuration_get [] "x" "a"
        (.mk "c" [("inherit", [("file", "p")])]
          (.cons (.mk "p" [("x", [("a", "1")])] .nil 0 []) .nil) 5 [])
      = (.str "1", .mk "c" [("inherit", [("file", "p")])]
          (.cons (.mk "p" [("x", [("a", "1")])] .nil 0 [("x", [("a", .str "1")])]) .nil)
          5 [("x", [("a", .str "1")])])
    ∧ parse_if_needed fsC1b false
        (.mk "c" [("inherit", [("file", "p")])]
          (.cons (.mk "p" [("x", [("a", "1")])] .nil 0 [("x", [("a", .str "1")])]) .nil)
          5 [("x", [("a", .str "1")])])
      = .ok (true, .mk "c" [("inherit", [("file", "p")])]
          (.cons (.mk "p" [("x", [("a", "2")])] .nil 6 []) .nil)
          5 [("x", [("a", .str "1")])])
    ∧ configuration_get [] "x" "a"
        (.mk "c" [("inherit", [("file", "p")])]
          (.cons (.mk "p" [("x", [("a", "2")])] .nil 6 []) .nil)
          5 [("x", [("a", .str "1")])])
      = (.str "1", .mk "c" [("inherit", [("file", "p")])]
          (.cons (.mk "p" [("x", [("a", "2")])] .nil 6 []) .nil)
          5 [("x", [("a", .str "1")])])
    ∧ (section_get [] "x" "a" (some (.str ""))
        (clearCaches (.mk "c" [("inherit", [("file", "p")])]
          (.cons (.mk "p" [("x", [("a", "2")])] .nil 6 []) .nil)
          5 [("x", [("a", .str "1")])]))).1 = some (.str "2")
    ∧ PyVal.str "1" ≠ PyVal.str "2" := by
  refine ⟨by with_unfolding_all rfl, by with_unfolding_all rfl,
    by with_unfolding_all rfl, by with_unfolding_all rfl,
    by with_unfolding_all rfl, by decide⟩

lemma normVal_idem (v : PyVal) : normVal (normVal v) = normVal v := by
  unfold normVal
  by_cases h : pyTruthy v = true
  · simp [h]
  · simp only [Bool.not_eq_true] at h
    simp only [h, Bool.false_eq_true, if_false]
    decide

lemma cacheFind_none_of_empty (sc : SCache)
    (h : sc.all (fun e => e.2.isEmpty) = true) (sect key : String) :
    cacheFind sc sect key = Option.none := by
  unfold cacheFind
  cases hf : sc.find? (fun e => e.1 == sect) with
  | none => rfl
  | some e =>
    have hmem := List.mem_of_find?_eq_some hf
    have he : e.2.isEmpty = true := by
      have := (List.all_eq_true.mp h) e hmem
      simpa using this
    show (e.2.find? (fun kv => kv.1 == key)).map (fun kv => kv.2) = Option.none
    cases h2 : e.2 with
    | nil => rfl
    | cons x xs => rw [h2] at he; exact (Bool.noConfusion he)

mutual
theorem section_get_none_fresh (reg : Registry) (sect key : String) :
    ∀ c : Configuration, cachesEmpty c = true →
      (section_get reg sect key Option.none c).1
        = (lookupExplicit sect key c).map (fun v => normVal (.str v))
  | .mk fn p ps lm sc, h => by
    unfold cachesEmpty at h
    simp only [Bool.and_eq_true] at h
    unfold section_get lookupExplicit
    simp only [cacheFind_none_of_empty sc h.1 sect key]
    cases hp : lookupOpt p sect key with
    | some raw => simp [hp]
    | none =>
      simp only [hp]
      have hL := section_get_parents_none_fresh reg sect key ps h.2
      rcases hpr : section_get_parents reg sect key ps with ⟨pv, ps2⟩
      rw [hpr] at hL
      replace hL : pv
          = (lookupExplicitList sect key ps).map (fun v => normVal (.str v)) := hL
      cases pv with
      | some v =>
        cases hle : lookupExplicitList sect key ps with
        | none => rw [hle] at hL; simp at hL
        | some raw =>
          rw [hle] at hL
          simp only [Option.map_some'] at hL
          injection hL with hv
          simp [hle, hv, normVal_idem]
      | none =>
        cases hle : lookupExplicitList sect key ps with
        | some raw => rw [hle] at hL; simp at hL
        | none => simp [hle]

theorem section_get_parents_none_fresh (reg : Registry) (sect key : String) :
    ∀ cs : ConfigList, cachesEmptyList cs = true →
      (section_get_parents reg sect key cs).1
        = (lookupExplicitList sect key cs).map (fun v => normVal (.str v))
  | .nil, _ => rfl
  | .cons c cs, h => by
    unfold cachesEmptyList at h
    simp only [Bool.and_eq_true] at h
    unfold section_get_parents lookupExplicitList
    have hc := section_get_none_fresh reg sect key c h.1
    rcases hg : section_get reg sect key Option.none c with ⟨gv, c2⟩
    rw [hg] at hc
    replace hc : gv
        = (lookupExplicit sect key c).map (fun v => normVal (.str v)) := hc
    cases gv with
    | some v =>
      cases hle : lookupExplicit sect key c with
      | none => rw [hle] at hc; simp at hc
      | some raw =>
        rw [hle] at hc
        simp only [Option.map_some'] at hc
        injection hc with hv
        simp [hle, hv]
    | none =>
      cases hle : lookupExplicit sect key c with
      | some raw => rw [hle] at hc; simp at hc
      | none =>
        simp only [hle]
        exact section_get_parents_none_fresh reg sect key cs h.2
end

/-- C3 (invariant I1): on a cache-free state, Section.get resolves, in
order, the value explicit in this file's own parsed section, else the value
explicit in the nearest parent (depth-first, parents in declaration order),
else the registry default of the pair, else the caller-supplied default;
resolved values pass through the source's normalisation (falsy to the empty
string), so an explicit empty string at any level is authoritative and is
returned as the empty string instead of falling through. -/
theorem section_get_precedence (reg : Registry) (sect key : String) (d : PyVal)
    (c : Configuration) (h : cachesEmpty c = true) :
    (section_get reg sect key (some d) c).1 = some (
      match lookupExplicit sect key c with
      | some v => normVal (.str v)
      | Option.none =>
        match regFind reg sect key with
        | some dv => normVal dv
        | Option.none => d) := by
  cases c with
  | mk fn p ps lm sc =>
    unfold cachesEmpty at h
    simp only [Bool.and_eq_true] at h
    unfold section_get lookupExplicit
    simp only [cacheFind_none_of_empty sc h.1 sect key]
    cases hp : lookupOpt p sect key with
    | some raw => simp [hp]
    | none =>
      simp only [hp]
      have hL := section_get_parents_none_fresh reg sect key ps h.2
      rcases hpr : section_get_parents reg sect key ps with ⟨pv, ps2⟩
      rw [hpr] at hL
      replace hL : pv
          = (lookupExplicitList sect key ps).map (fun v => normVal (.str v)) := hL
      cases pv with
      | some v =>
        cases hle : lookupExplicitList sect key ps with
        | none => rw [hle] at hL; simp at hL
        | some raw =>
          rw [hle] at hL
          simp only [Option.map_some'] at hL
          injection hL with hv
          simp [hle, hv, normVal_idem]
      | none =>
        cases hle : lookupExplicitList sect key ps with
        | some raw => rw [hle] at hL; simp at hL
        | none =>
          simp only [hle]
          cases hreg : regFind reg sect key with
          | some dv => simp [hreg]
          | none => simp [hreg]

/-- Closed witness for the C3 theorem: with registry default 3 for (x, a),
an explicit empty string in the child wins over the parent value 2 and the
registry; with no explicit value anywhere the registry default 3 wins over
the caller default; with an empty registry the caller default z is
returned. -/
theorem section_get_precedence_witness :
    (section_get [(("x", "a"), PyVal.str "3")] "x" "a" (some (.str "z"))
      (.mk "c" [("x", [("a", "")])]
        (.cons (.mk "p" [("x", [("a", "2")])] .nil 0 []) .nil) 5 [])).1
      = some (.str "")
    ∧ (section_get [(("x", "a"), PyVal.str "3")] "x" "a" (some (.str "z"))
        (.mk "c" [] .nil 5 [])).1 = some (.str "3")
    ∧ (section_get [] "x" "a" (some (.str "z"))
        (.mk "c" [] .nil 5 [])).1 = some (.str "z") := by
  refine ⟨?_, ?_, ?_⟩
  · have h := section_get_precedence [(("x", "a"), PyVal.str "3")] "x" "a"
      (.str "z") (.mk "c" [("x", [("a", "")])]
        (.cons (.mk "p" [("x", [("a", "2")])] .nil 0 []) .nil) 5 [])
      (by with_unfolding_all rfl)
    with_unfolding_all exact h
  · have h := section_get_precedence [(("x", "a"), PyVal.str "3")] "x" "a"
      (.str "z") (.mk "c" [] .nil 5 []) (by with_unfolding_all rfl)
    with_unfolding_all exact h
  · have h := section_get_precedence [] "x" "a" (.str "z")
      (.mk "c" [] .nil 5 []) (by with_unfolding_all rfl)
    with_unfolding_all exact h

lemma mtimesGet_set_same : ∀ (m : Mtimes) (fn : String) (t : Int),
    mtimesGet (mtimesSet m fn t) fn = t
  | [], fn, t => by
    simp [mtimesSet, mtimesGet, List.find?]
  | (f2, t2) :: rest, fn, t => by
    unfold mtimesSet
    by_cases h : (f2 == fn) = true
    · simp only [h, if_true]
      unfold mtimesGet
      rw [List.find?_cons_of_pos _ (by simpa using h)]
    · simp only [h, Bool.false_eq_true, if_false]
      unfold mtimesGet
      rw [List.find?_cons_of_neg _ (by simpa using h)]
      exact mtimesGet_set_same rest fn t

lemma mtimesGet_set_other : ∀ (m : Mtimes) (fn fn2 : String) (t : Int),
    (fn == fn2) = false →
    mtimesGet (mtimesSet m fn t) fn2 = mtimesGet m fn2
  | [], fn, fn2, t, h => by
    simp only [mtimesSet, mtimesGet, List.find?]
    simp [h]
  | (f2, t2) :: rest, fn, fn2, t, h => by
    unfold mtimesSet
    by_cases h2 : (f2 == fn) = true
    · simp only [h2, if_true]
      unfold mtimesGet
      have hfn : f2 = fn := by simpa using h2
      by_cases h3 : (f2 == fn2) = true
      · exact absurd h (by simp_all)
      · rw [List.find?_cons_of_neg _ (by simpa using h3),
          List.find?_cons_of_neg _ (by simpa using h3)]
    · simp only [h2, Bool.false_eq_true, if_false]
      unfold mtimesGet
      by_cases h3 : (f2 == fn2) = true
      · rw [List.find?_cons_of_pos _ (by simpa using h3),
          List.find?_cons_of_pos _ (by simpa using h3)]
      · rw [List.find?_cons_of_neg _ (by simpa using h3),
          List.find?_cons_of_neg _ (by simpa using h3)]
        exact mtimesGet_set_other rest fn fn2 t h

/-- C7 counterexample: A and B both changed before the tick (recorded
mtimes 5, on disk 10) and reloading A's dependent raises.  The tick detects
A, records its new mtime, completes no reload, and — since the try block of
run wraps the whole loop over watched files — never reaches B in that same
tick: B is neither detected nor reloaded, refuting the same-tick half of
the claim. -/
theorem monitor_same_tick_counterexample :
    monitorTick fsC7 watchC7 [("A", 5), ("B", 5)]
      = ⟨[("A", 10), ("B", 5)], ["A"], []⟩ := by
  with_unfolding_all rfl

/-- C7 as amended: when both watched files A and B changed and the reload
action of A's dependent raises, the tick that visits A first detects only A
(the exception is caught at the loop boundary, so B is skipped that tick,
not processed in it); because A's mtime was recorded before the failing
reload and B's was not, the next tick detects and processes B; and any
later tick still detects A's next modification.  Every tick is a total
function and the following tick runs on its result: the exception never
terminates the monitor loop. -/
theorem monitor_failure_isolation (a b : String) (pa pb : Plugin) (m : Mtimes)
    (fs : FS) (ta tb : Int) (hab : (a == b) = false)
    (hpaa : pa.alive = true) (hpar : pa.raises = true)
    (hpba : pb.alive = true) (hpbr : pb.raises = false)
    (hfa : fsMtime fs a = some ta) (hfb : fsMtime fs b = some tb)
    (hta : ta > mtimesGet m a) (htb : tb > mtimesGet m b) :
    monitorTick fs [(a, [pa]), (b, [pb])] m = ⟨mtimesSet m a ta, [a], []⟩
    ∧ monitorTick fs [(a, [pa]), (b, [pb])] (mtimesSet m a ta)
      = ⟨mtimesSet (mtimesSet m a ta) b tb, [b], [pb.pid]⟩
    ∧ (∀ (fs2 : FS) (ta2 : Int), fsMtime fs2 a = some ta2 → ta2 > ta →
        (monitorTick fs2 [(a, [pa]), (b, [pb])] (mtimesSet m a ta)).detected.head?
          = some a) := by
  refine ⟨?_, ?_, ?_⟩
  · unfold monitorTick
    simp only [hfa]
    rw [if_pos hta]
    simp only [reloadSeq, hpaa, hpar, Bool.not_true, Bool.false_eq_true, if_false,
      if_true]
  · unfold monitorTick
    simp only [hfa, mtimesGet_set_same m a ta]
    rw [if_neg (gt_irrefl ta)]
    unfold monitorTick
    simp only [hfb, mtimesGet_set_other m a b ta hab]
    rw [if_pos htb]
    simp only [reloadSeq, hpba, hpbr, Bool.not_true, Bool.false_eq_true, if_false,
      if_true, List.cons_append, List.nil_append, monitorTick]
  · intro fs2 ta2 hfa2 hta2
    unfold monitorTick
    simp only [hfa2, mtimesGet_set_same m a ta]
    rw [if_pos hta2]
    simp only [reloadSeq, hpaa, hpar, Bool.not_true, Bool.false_eq_true, if_false,
      if_true]
    rfl

/-- Closed witness for the amended C7 theorem: both files changed (recorded
5, on disk 10), A's dependent raises; the first tick detects only A, the
second tick detects and reloads B's dependent, and after A's next
modification (mtime 11) a later tick detects A first again. -/
theorem monitor_failure_isolation_witness :
    monitorTick fsC7 [("A", [(⟨1, true, true⟩ : Plugin)]), ("B", [⟨2, true, false⟩])]
        [("A", 5), ("B", 5)]
      = ⟨[("A", 10), ("B", 5)], ["A"], []⟩
    ∧ monitorTick fsC7 [("A", [(⟨1, true, true⟩ : Plugin)]), ("B", [⟨2, true, false⟩])]
        [("A", 10), ("B", 5)]
      = ⟨[("A", 10), ("B", 10)], ["B"], [2]⟩
    ∧ (monitorTick (fsOf [("A", .file 11 []), ("B", .file 10 [])])
        [("A", [(⟨1, true, true⟩ : Plugin)]), ("B", [⟨2, true, false⟩])]
        [("A", 10), ("B", 5)]).detected.head? = some "A" := by
  have h := monitor_failure_isolation "A" "B" ⟨1, true, true⟩ ⟨2, true, false⟩
    [("A", 5), ("B", 5)] fsC7 10 10 (by decide) rfl rfl rfl rfl
    (by with_unfolding_all rfl) (by with_unfolding_all rfl) (by decide) (by decide)
  refine ⟨by with_unfolding_all exact h.1, by with_unfolding_all exact h.2.1, ?_⟩
  have h3 := h.2.2 (fsOf [("A", .file 11 []), ("B", .file 10 [])]) 11
    (by with_unfolding_all rfl) (by decide)
  with_unfolding_all exact h3
